import Mathlib

/-
  Verification of the rilo text editor (src/main.rs) against its
  natural-language specification.

  The editing engine is shallowly embedded: rows are lists of characters
  (the source uses byte-indexed ASCII strings), usize arithmetic is Nat
  (guarded subtractions in the source are modelled exactly; an unguarded
  subtraction that would underflow, or an out-of-bounds index or slice,
  is modelled as a panic by returning none, matching the overflow- and
  bounds-checked behaviour of the compiled program).  Terminal I/O
  (RawMode, SystemMessage timing, drawing) carries no editing state and
  is omitted.
-/

namespace Rilo

abbrev Row := List Char

/-- Cursor position relative to the terminal, from struct CursorPosition. -/
structure CursorPosition where
  x : Nat
  y : Nat
  deriving DecidableEq, Repr

/-- Navigation key presses, from enum NavigationKey. -/
inductive NavigationKey where
  | Left
  | Right
  | Up
  | Down
  | Home
  | End
  | PageUp
  | PageDown
  deriving DecidableEq, Repr

/-- Decoded input actions, from enum Action; Input carries the raw byte. -/
inductive Action where
  | Quit
  | Refresh
  | Escape
  | Save
  | Delete
  | Enter
  | Input (c : Nat)
  deriving DecidableEq, Repr

/-- Editor state, from struct Editor.  The file field holds the backing
file's current content (a file handle plus what the file stores); the
RawMode handle and the timed SystemMessage are terminal-only and omitted. -/
structure Editor where
  term_rows : Nat
  term_cols : Nat
  cur_pos : CursorPosition
  row_offset : Nat
  col_offset : Nat
  tab_size : Nat
  file : Option (List Char)
  rows : List Row
  dirty_flag : Bool
  path : Option (List Char)
  deriving DecidableEq, Repr

/-- Editor::current_line: rows.get(row_offset + cur_pos.y). -/
def currentLine (e : Editor) : Option Row :=
  e.rows.get? (e.row_offset + e.cur_pos.y)

/-- NavigationKey::Left, inner row shift: decrement row_offset at the top
visible row, else decrement cur_pos.y unless already at the very start. -/
def moveLeftShift (e : Editor) : Editor :=
  if e.cur_pos.y = 0 ∧ e.row_offset ≠ 0 then
    { e with row_offset := e.row_offset - 1 }
  else if ¬ (e.cur_pos.y = 0 ∧ e.row_offset = 0) then
    { e with cur_pos := { e.cur_pos with y := e.cur_pos.y - 1 } }
  else
    e

/-- NavigationKey::Left, snap to the end of the new current line (the
source uses len saturating_sub 1) unless at the very start. -/
def moveLeftSnapEnd (e : Editor) : Editor :=
  if ¬ (e.row_offset = 0 ∧ e.cur_pos.y = 0) then
    match currentLine e with
    | some current_line =>
      let line_length := current_line.length - 1
      if line_length > e.term_cols then
        { e with col_offset := line_length - e.term_cols,
                 cur_pos := { e.cur_pos with x := e.term_cols } }
      else
        { e with col_offset := 0,
                 cur_pos := { e.cur_pos with x := line_length } }
    | none => e
  else
    e

/-- NavigationKey::Left arm of Editor::move_cursor. -/
def moveLeft (e : Editor) : Editor :=
  if e.cur_pos.x ≠ 0 then
    { e with cur_pos := { e.cur_pos with x := e.cur_pos.x - 1 } }
  else if e.cur_pos.x = 0 ∧ e.col_offset ≠ 0 then
    { e with col_offset := e.col_offset - 1 }
  else if e.cur_pos.x = 0 ∧ e.col_offset = 0 then
    moveLeftSnapEnd (moveLeftShift e)
  else
    e

/-- NavigationKey::Right arm of Editor::move_cursor; a no-op when the
cursor is past the last line. -/
def moveRight (e : Editor) : Editor :=
  match currentLine e with
  | none => e
  | some current_line =>
    let line_length := current_line.length
    if e.cur_pos.x = line_length ∨ e.cur_pos.x + e.col_offset = line_length then
      if e.cur_pos.y + e.row_offset ≠ e.rows.length then
        if e.cur_pos.y = e.term_rows then
          { e with cur_pos := { e.cur_pos with x := 0 },
                   col_offset := 0,
                   row_offset := e.row_offset + 1 }
        else
          { e with cur_pos := { x := 0, y := e.cur_pos.y + 1 },
                   col_offset := 0 }
      else
        e
    else if e.cur_pos.x ≠ e.term_cols then
      { e with cur_pos := { e.cur_pos with x := e.cur_pos.x + 1 } }
    else
      { e with col_offset := e.col_offset + 1 }

/-- NavigationKey::Up, row shift before the horizontal clamp. -/
def moveUpShift (e : Editor) : Editor :=
  if e.cur_pos.y ≠ 0 then
    { e with cur_pos := { e.cur_pos with y := e.cur_pos.y - 1 } }
  else if e.cur_pos.y = 0 ∧ e.row_offset ≠ 0 then
    { e with row_offset := e.row_offset - 1 }
  else
    e

/-- Clamp cur_pos.x to the current line's length when it exceeds it;
shared by the Up, PageUp and PageDown arms of Editor::move_cursor. -/
def clampX (e : Editor) : Editor :=
  match currentLine e with
  | some next_line =>
    if e.cur_pos.x > next_line.length then
      { e with cur_pos := { e.cur_pos with x := next_line.length } }
    else
      e
  | none => e

/-- NavigationKey::Up arm of Editor::move_cursor. -/
def moveUp (e : Editor) : Editor :=
  clampX (moveUpShift e)

/-- NavigationKey::Down, row shift before the horizontal clamp. -/
def moveDownShift (e : Editor) : Editor :=
  if e.cur_pos.y ≠ e.term_rows then
    { e with cur_pos := { e.cur_pos with y := e.cur_pos.y + 1 } }
  else if e.cur_pos.y = e.term_rows ∧ e.row_offset + e.term_rows ≠ e.rows.length then
    { e with row_offset := e.row_offset + 1 }
  else
    e

/-- Clamp cur_pos.x to len saturating_sub 1 when it exceeds the current
line's length; the Down arm of Editor::move_cursor uses this clamp. -/
def clampXSub (e : Editor) : Editor :=
  match currentLine e with
  | some next_line =>
    if e.cur_pos.x > next_line.length then
      { e with cur_pos := { e.cur_pos with x := next_line.length - 1 } }
    else
      e
  | none => e

/-- NavigationKey::Down arm of Editor::move_cursor.  The source computes
file_length as rows.len() - 1, which underflows on an empty buffer: that
is an arithmetic overflow panic in a checked build, modelled as none. -/
def moveDown (e : Editor) : Option Editor :=
  if e.rows.length = 0 then
    none
  else
    let file_length := e.rows.length - 1
    if e.row_offset + e.cur_pos.y ≠ file_length then
      some (clampXSub (moveDownShift e))
    else
      some e

/-- NavigationKey::Home arm of Editor::move_cursor. -/
def moveHome (e : Editor) : Editor :=
  { e with cur_pos := { e.cur_pos with x := 0 }, col_offset := 0 }

/-- NavigationKey::End arm of Editor::move_cursor.  The source unwraps
current_line(), which panics when the cursor is past the last line:
modelled as none. -/
def moveEnd (e : Editor) : Option Editor :=
  match currentLine e with
  | none => none
  | some current_line =>
    let current_line_len := current_line.length
    if current_line_len ≤ e.term_cols then
      some { e with cur_pos := { e.cur_pos with x := current_line_len } }
    else
      some { e with col_offset := current_line_len - e.term_cols,
                    cur_pos := { e.cur_pos with x := e.term_cols } }

/-- NavigationKey::PageUp arm of Editor::move_cursor. -/
def movePageUp (e : Editor) : Editor :=
  clampX { e with cur_pos := { e.cur_pos with y := 0 } }

/-- NavigationKey::PageDown arm of Editor::move_cursor. -/
def movePageDown (e : Editor) : Editor :=
  clampX { e with cur_pos := { e.cur_pos with y := e.term_rows } }

/-- Editor::move_cursor; none models a panic in the dispatched arm. -/
def moveCursor (e : Editor) (ak : NavigationKey) : Option Editor :=
  match ak with
  | .Left => some (moveLeft e)
  | .Right => some (moveRight e)
  | .Up => some (moveUp e)
  | .Down => moveDown e
  | .Home => some (moveHome e)
  | .End => moveEnd e
  | .PageUp => some (movePageUp e)
  | .PageDown => some (movePageDown e)

/-- Apply a sequence of navigation keys, stopping at a panic. -/
def applyNav (e : Editor) : List NavigationKey → Option Editor
  | [] => some e
  | k :: ks =>
    match moveCursor e k with
    | some e1 => applyNav e1 ks
    | none => none

/-- Buffer mutation of Editor::insert_char, after the dirty flag is set
and before the implicit move_cursor(Right).  Indexing rows at an
out-of-range y, or slicing the row past its length, panics in the
source: modelled as none. -/
def insertCharEdited (e0 : Editor) (c : Char) : Option Editor :=
  let x := e0.cur_pos.x + e0.col_offset
  let y := e0.cur_pos.y + e0.row_offset
  if y = e0.rows.length then
    some { e0 with rows := e0.rows ++ [[c]] }
  else
    match e0.rows.get? y with
    | none => none
    | some row =>
      if x ≤ row.length then
        some { e0 with rows := e0.rows.set y (row.take x ++ [c] ++ row.drop x) }
      else
        none

/-- Editor::insert_char: set the dirty flag, mutate the buffer, then
move_cursor(Right). -/
def insertChar (e : Editor) (c : Char) : Option Editor :=
  match insertCharEdited { e with dirty_flag := true } c with
  | some e1 => moveCursor e1 .Right
  | none => none

/-- Buffer mutation of Editor::remove_char, after the dirty flag is set
and before the implicit move_cursor(Left).  With x = 0 and an existing
current line the source indexes rows at y - 1; at y = 0 that underflows
and panics: modelled as none.  Likewise for an out-of-range row index or
slice in the x > 0 branch. -/
def removeCharEdited (e0 : Editor) : Option Editor :=
  let x := e0.cur_pos.x + e0.col_offset
  let y := e0.cur_pos.y + e0.row_offset
  if x = 0 then
    match currentLine e0 with
    | some line =>
      if y = 0 then
        none
      else
        match e0.rows.get? (y - 1) with
        | none => none
        | some prev =>
          some { e0 with rows := (e0.rows.set (y - 1) (prev ++ line)).eraseIdx y }
    | none => some e0
  else
    match e0.rows.get? y with
    | none => none
    | some row =>
      if x ≤ row.length then
        some { e0 with rows := e0.rows.set y (row.take (x - 1) ++ row.drop x) }
      else
        none

/-- Editor::remove_char: set the dirty flag, mutate the buffer, then
move_cursor(Left). -/
def removeChar (e : Editor) : Option Editor :=
  match removeCharEdited { e with dirty_flag := true } with
  | some e1 => moveCursor e1 .Left
  | none => none

/-- The newline character, written by Editor::save after every row. -/
def nlChar : Char := Char.ofNat 10

/-- The carriage-return character, stripped by BufRead::lines from a
line that ended in a CRLF pair. -/
def crChar : Char := Char.ofNat 13

/-- The byte stream Editor::save writes: every row followed by exactly
one newline. -/
def savedContent (rows : List Row) : List Char :=
  (rows.map (fun row => row ++ [nlChar])).flatten

/-- Editor::save.  With a backing file it truncates and rewrites it and
clears the dirty flag; with none it does nothing.  Returns the new
editor state and the content written, if any. -/
def saveE (e : Editor) : Editor × Option (List Char) :=
  match e.file with
  | some _ =>
    ({ e with file := some (savedContent e.rows), dirty_flag := false },
     some (savedContent e.rows))
  | none => (e, none)

/-- Strip one trailing carriage return, as BufRead::lines does after
removing the newline of a line that ended with one. -/
def stripCR (l : List Char) : List Char :=
  if l.getLast? = some crChar then l.dropLast else l

/-- Split a file's characters the way BufReader::lines does in
Editor::open: each newline terminates a line (the newline itself is not
stored, and a CR just before it is stripped); a final segment without a
newline is kept as-is; a file ending in a newline yields no extra empty
line.  The accumulator holds the current segment reversed. -/
def rustLinesAux : List Char → List Char → List (List Char)
  | [], acc => if acc = [] then [] else [acc.reverse]
  | c :: rest, acc =>
    if c = nlChar then
      stripCR acc.reverse :: rustLinesAux rest []
    else
      rustLinesAux rest (c :: acc)

/-- The lines Editor::open reads from a file's characters. -/
def rustLines (cs : List Char) : List (List Char) :=
  rustLinesAux cs []

/-- A model file system: an association list from paths to the contents
of the regular files at them; a path absent from it is not a regular
file. -/
abbrev FS := List (List Char × List Char)

/-- Look a path up in the model file system. -/
def lookupFS : FS → List Char → Option (List Char)
  | [], _ => none
  | (p, c) :: rest, q => if p = q then some c else lookupFS rest q

/-- Editor::open.  When the path is a regular file it opens it, records
the path and replaces the rows with the file's lines; otherwise the
whole body is skipped. -/
def openE (e : Editor) (fs : FS) (filename : List Char) : Editor :=
  match lookupFS fs filename with
  | some content =>
    { e with file := some content,
             path := some filename,
             rows := rustLines content }
  | none => e

/-- The io::Result returned by Editor::open: the function ends in Ok(())
on every path through its body. -/
def openResultE (e : Editor) (fs : FS) (filename : List Char) : Except Unit Editor :=
  Except.ok (openE e fs filename)

/-- The ctrl_key helper: c as u8 bitwise-and 0x1f. -/
def ctrl_key (c : Char) : Nat :=
  c.toNat % 32

/-- impl From of u8 for Action, with the branches in source order
(including the dead c = 27 test in the Delete arm). -/
def byteAction (c : Nat) : Action :=
  if c = ctrl_key 'q' then .Quit
  else if c = ctrl_key 'x' then .Refresh
  else if c = ctrl_key 's' then .Save
  else if c = 27 then .Escape
  else if c = 27 ∨ c = 127 then .Delete
  else if c = 13 then .Enter
  else .Input c

/-- handle_escape_seq on the two bytes after ESC: byte 91 (the opening
bracket) then the fixed navigation table; anything else is the
InvalidData error. -/
def handleEscapeSeq (b0 b1 : Nat) : Except Unit NavigationKey :=
  if b0 = 91 then
    if b1 = 65 then Except.ok .Up
    else if b1 = 66 then Except.ok .Down
    else if b1 = 67 then Except.ok .Right
    else if b1 = 68 then Except.ok .Left
    else if b1 = 72 then Except.ok .Home
    else if b1 = 70 then Except.ok .End
    else if b1 = 53 then Except.ok .PageUp
    else if b1 = 54 then Except.ok .PageDown
    else Except.error ()
  else
    Except.error ()

/-- The Action::Escape arm of the main loop: a decoded navigation key is
dispatched to move_cursor, a decode error is dropped on the floor. -/
def escapeStep (e : Editor) (b0 b1 : Nat) : Option Editor :=
  match handleEscapeSeq b0 b1 with
  | Except.ok ak => moveCursor e ak
  | Except.error _ => some e

/-- A convenient base state: fresh editor on a 10x10 usable area. -/
def baseEditor : Editor :=
  { term_rows := 10
    term_cols := 10
    cur_pos := { x := 0, y := 0 }
    row_offset := 0
    col_offset := 0
    tab_size := 4
    file := none
    rows := []
    dirty_flag := false
    path := none }

/-- An editor over an empty buffer with the given usable area. -/
def eEmpty (tr tc : Nat) : Editor :=
  { baseEditor with term_rows := tr, term_cols := tc }

theorem moveLeftShift_frame (e : Editor) :
    (moveLeftShift e).rows = e.rows ∧ (moveLeftShift e).dirty_flag = e.dirty_flag := by
  simp only [moveLeftShift]
  repeat' split
  all_goals exact ⟨rfl, rfl⟩

theorem moveLeftSnapEnd_frame (e : Editor) :
    (moveLeftSnapEnd e).rows = e.rows ∧ (moveLeftSnapEnd e).dirty_flag = e.dirty_flag := by
  simp only [moveLeftSnapEnd]
  repeat' split
  all_goals exact ⟨rfl, rfl⟩

theorem moveLeft_frame (e : Editor) :
    (moveLeft e).rows = e.rows ∧ (moveLeft e).dirty_flag = e.dirty_flag := by
  simp only [moveLeft]
  repeat' split
  all_goals
    first
    | exact ⟨rfl, rfl⟩
    | exact ⟨(moveLeftSnapEnd_frame _).1.trans (moveLeftShift_frame e).1,
             (moveLeftSnapEnd_frame _).2.trans (moveLeftShift_frame e).2⟩

theorem moveRight_frame (e : Editor) :
    (moveRight e).rows = e.rows ∧ (moveRight e).dirty_flag = e.dirty_flag := by
  simp only [moveRight]
  repeat' split
  all_goals exact ⟨rfl, rfl⟩

theorem moveUpShift_frame (e : Editor) :
    (moveUpShift e).rows = e.rows ∧ (moveUpShift e).dirty_flag = e.dirty_flag := by
  simp only [moveUpShift]
  repeat' split
  all_goals exact ⟨rfl, rfl⟩

theorem clampX_frame (e : Editor) :
    (clampX e).rows = e.rows ∧ (clampX e).dirty_flag = e.dirty_flag := by
  simp only [clampX]
  repeat' split
  all_goals exact ⟨rfl, rfl⟩

theorem clampXSub_frame (e : Editor) :
    (clampXSub e).rows = e.rows ∧ (clampXSub e).dirty_flag = e.dirty_flag := by
  simp only [clampXSub]
  repeat' split
  all_goals exact ⟨rfl, rfl⟩

theorem moveUp_frame (e : Editor) :
    (moveUp e).rows = e.rows ∧ (moveUp e).dirty_flag = e.dirty_flag :=
  ⟨(clampX_frame _).1.trans (moveUpShift_frame e).1,
   (clampX_frame _).2.trans (moveUpShift_frame e).2⟩

theorem moveDownShift_frame (e : Editor) :
    (moveDownShift e).rows = e.rows ∧ (moveDownShift e).dirty_flag = e.dirty_flag := by
  simp only [moveDownShift]
  repeat' split
  all_goals exact ⟨rfl, rfl⟩

theorem moveDown_frame (e e' : Editor) (h : moveDown e = some e') :
    e'.rows = e.rows ∧ e'.dirty_flag = e.dirty_flag := by
  simp only [moveDown] at h
  split at h
  · exact absurd h (by simp)
  · split at h
    · obtain rfl : clampXSub (moveDownShift e) = e' := by simpa using h
      exact ⟨(clampXSub_frame _).1.trans (moveDownShift_frame e).1,
             (clampXSub_frame _).2.trans (moveDownShift_frame e).2⟩
    · obtain rfl : e = e' := by simpa using h
      exact ⟨rfl, rfl⟩

theorem moveEnd_frame (e e' : Editor) (h : moveEnd e = some e') :
    e'.rows = e.rows ∧ e'.dirty_flag = e.dirty_flag := by
  simp only [moveEnd] at h
  split at h
  · exact absurd h (by simp)
  · split at h <;> (obtain rfl := Option.some.inj h; exact ⟨rfl, rfl⟩)

theorem movePageUp_frame (e : Editor) :
    (movePageUp e).rows = e.rows ∧ (movePageUp e).dirty_flag = e.dirty_flag :=
  (clampX_frame _)

theorem movePageDown_frame (e : Editor) :
    (movePageDown e).rows = e.rows ∧ (movePageDown e).dirty_flag = e.dirty_flag :=
  (clampX_frame _)

/-- No navigation ever touches the buffer contents or the dirty flag. -/
theorem moveCursor_frame (e : Editor) (k : NavigationKey) (e' : Editor)
    (h : moveCursor e k = some e') :
    e'.rows = e.rows ∧ e'.dirty_flag = e.dirty_flag := by
  cases k with
  | Left => obtain rfl := Option.some.inj h; exact moveLeft_frame e
  | Right => obtain rfl := Option.some.inj h; exact moveRight_frame e
  | Up => obtain rfl := Option.some.inj h; exact moveUp_frame e
  | Down => exact moveDown_frame e e' h
  | Home => obtain rfl := Option.some.inj h; exact ⟨rfl, rfl⟩
  | End => exact moveEnd_frame e e' h
  | PageUp => obtain rfl := Option.some.inj h; exact movePageUp_frame e
  | PageDown => obtain rfl := Option.some.inj h; exact movePageDown_frame e

theorem currentLine_setX (e : Editor) (v : Nat) :
    currentLine { e with cur_pos := { e.cur_pos with x := v } } = currentLine e :=
  rfl

theorem clampX_currentLine (e : Editor) :
    currentLine (clampX e) = currentLine e := by
  simp only [clampX]
  repeat' split
  all_goals rfl

theorem clampXSub_currentLine (e : Editor) :
    currentLine (clampXSub e) = currentLine e := by
  simp only [clampXSub]
  repeat' split
  all_goals rfl

theorem clampX_x (e : Editor) (l : Row) (h : currentLine e = some l) :
    (clampX e).cur_pos.x = min e.cur_pos.x l.length := by
  simp only [clampX, h]
  split
  · show l.length = min e.cur_pos.x l.length
    omega
  · show e.cur_pos.x = min e.cur_pos.x l.length
    omega

theorem clampXSub_x (e : Editor) (l : Row) (h : currentLine e = some l) :
    (clampXSub e).cur_pos.x =
      if l.length < e.cur_pos.x then l.length - 1 else e.cur_pos.x := by
  simp only [clampXSub, h]
  split <;> rfl

theorem moveUpShift_x (e : Editor) : (moveUpShift e).cur_pos.x = e.cur_pos.x := by
  simp only [moveUpShift]
  repeat' split
  all_goals rfl

theorem moveDownShift_x (e : Editor) : (moveDownShift e).cur_pos.x = e.cur_pos.x := by
  simp only [moveDownShift]
  repeat' split
  all_goals rfl

theorem stripCR_eq (l : List Char) (h : l.getLast? ≠ some crChar) :
    stripCR l = l := by
  simp [stripCR, h]

/-- Splitting at the first newline of a segment that contains none. -/
theorem rustLinesAux_split (r rest acc : List Char) (h : nlChar ∉ r) :
    rustLinesAux (r ++ nlChar :: rest) acc =
      stripCR (acc.reverse ++ r) :: rustLinesAux rest [] := by
  induction r generalizing acc with
  | nil => simp [rustLinesAux]
  | cons c cs ih =>
    have hc : ¬ c = nlChar := fun hh => h (hh ▸ List.mem_cons_self c cs)
    have hcs : nlChar ∉ cs := fun hh => h (List.mem_cons_of_mem c hh)
    simp only [List.cons_append, rustLinesAux, if_neg hc, List.append_eq]
    rw [ih _ hcs]
    simp

/-- Saving and re-splitting restores every row that holds no newline and
does not end in a carriage return. -/
theorem rustLines_savedContent (rows : List Row)
    (h : ∀ r ∈ rows, nlChar ∉ r ∧ r.getLast? ≠ some crChar) :
    rustLines (savedContent rows) = rows := by
  induction rows with
  | nil => rfl
  | cons r rs ih =>
    obtain ⟨h1, h2⟩ := h r (List.mem_cons_self r rs)
    have hrest : ∀ x ∈ rs, nlChar ∉ x ∧ x.getLast? ≠ some crChar :=
      fun x hx => h x (List.mem_cons_of_mem r hx)
    have hsc : savedContent (r :: rs) = r ++ nlChar :: savedContent rs := by
      simp [savedContent]
    rw [rustLines, hsc, rustLinesAux_split _ _ _ h1]
    simp only [List.reverse_nil, List.nil_append, stripCR_eq r h2]
    rw [show rustLinesAux (savedContent rs) [] = rustLines (savedContent rs) from rfl,
        ih hrest]

theorem mem_stripCR (a : Char) (l : List Char) (h : a ∈ stripCR l) : a ∈ l := by
  simp only [stripCR] at h
  split at h
  · exact (List.dropLast_prefix l).sublist.subset h
  · exact h

/-- No line produced by the line splitter contains a newline. -/
theorem rustLinesAux_no_nl (cs : List Char) :
    ∀ acc, nlChar ∉ acc → ∀ r ∈ rustLinesAux cs acc, nlChar ∉ r := by
  induction cs with
  | nil =>
    intro acc hacc r hr
    simp only [rustLinesAux] at hr
    split at hr
    · exact absurd hr (List.not_mem_nil r)
    · have : r = acc.reverse := by simpa using hr
      subst this
      simpa [List.mem_reverse] using hacc
  | cons c rest ih =>
    intro acc hacc r hr
    simp only [rustLinesAux] at hr
    by_cases hc : c = nlChar
    · rw [if_pos hc] at hr
      rcases List.mem_cons.mp hr with h1 | h1
      · subst h1
        intro hmem
        exact hacc (List.mem_reverse.mp (mem_stripCR _ _ hmem))
      · exact ih [] (List.not_mem_nil nlChar) r h1
    · rw [if_neg hc] at hr
      refine ih (c :: acc) ?_ r hr
      intro hmem
      rcases List.mem_cons.mp hmem with h1 | h1
      · exact hc h1.symm
      · exact hacc h1

theorem rustLines_no_nl (content : List Char) (r : List Char)
    (hr : r ∈ rustLines content) : nlChar ∉ r :=
  rustLinesAux_no_nl content [] (List.not_mem_nil nlChar) r hr

/-- A two-line buffer, the first line longer than the usable width. -/
def C1editor : Editor :=
  { baseEditor with term_cols := 2, rows := [['a', 'b', 'c', 'd'], ['x']] }

/-- The state the code reaches from C1editor after End then Down. -/
def C1after : Editor :=
  { C1editor with cur_pos := { x := 0, y := 1 }, col_offset := 2 }

/-- C1: the spec demands that after any sequence of navigation actions the
absolute cursor column x + col_offset stays at most the current line's
length.  The code breaks this: from the buffer with lines abcd and x on a
2-column usable width, End sets col_offset to 2, and Down clamps only the
viewport-relative x, leaving the absolute column at 2 on the line x of
length 1 — past the last valid insertion point. -/
theorem C1_navigation_bound_violated :
    applyNav C1editor [NavigationKey.End, NavigationKey.Down] = some C1after ∧
    currentLine C1after = some ['x'] ∧
    C1after.cur_pos.x + C1after.col_offset = 2 ∧
    List.length ['x'] < C1after.cur_pos.x + C1after.col_offset := by
  refine ⟨by decide, by decide, by decide, by decide⟩

/-- A buffer holding one row that contains a newline character. -/
def C2bad : Editor :=
  { baseEditor with file := some [], rows := [['a', Char.ofNat 10, 'b']] }

/-- C2 counterexample: for a buffer whose single row contains an embedded
newline, save followed by load does not reproduce the row — the reload
splits it in two. -/
theorem C2_roundtrip_counterexample :
    (saveE C2bad).2 = some (savedContent C2bad.rows) ∧
    rustLines (savedContent C2bad.rows) = [['a'], ['b']] ∧
    rustLines (savedContent C2bad.rows) ≠ C2bad.rows := by
  refine ⟨rfl, by decide, by decide⟩

/-- C2 amended: for every buffer with a backing file whose rows contain no
newline and do not end in a carriage return, save writes every line
followed by exactly one newline and clears the dirty flag, and re-reading
what was written reproduces the rows exactly; the reader stores no
newline character in any line. -/
theorem C2_save_load_roundtrip (e : Editor) (f : List Char)
    (hf : e.file = some f)
    (h : ∀ r ∈ e.rows, nlChar ∉ r ∧ r.getLast? ≠ some crChar) :
    (saveE e).2 = some (savedContent e.rows) ∧
    (saveE e).1.dirty_flag = false ∧
    rustLines (savedContent e.rows) = e.rows := by
  refine ⟨?_, ?_, rustLines_savedContent _ h⟩ <;> simp [saveE, hf]

/-- A small saved-and-reloaded buffer used to witness C2. -/
def C2w : Editor :=
  { baseEditor with file := some [], rows := [['h', 'i'], []] }

theorem C2_save_load_roundtrip_witness :
    (saveE C2w).2 = some (savedContent C2w.rows) ∧
    (saveE C2w).1.dirty_flag = false ∧
    rustLines (savedContent C2w.rows) = C2w.rows :=
  C2_save_load_roundtrip C2w [] rfl (by decide)

/-- A one-line buffer with the cursor at the absolute origin. -/
def C3buffer : Editor :=
  { baseEditor with rows := [['a']] }

/-- C3: the spec says backspace at absolute position x = 0, y = 0 is a
no-op that does not fail.  In the code, remove_char at that state takes
the x = 0 branch while a current line exists, and indexes rows at y - 1
with y = 0: a subtraction underflow, so the program panics instead of
doing nothing. -/
theorem C3_backspace_at_origin_panics :
    removeChar C3buffer = none := by
  decide

/-- The C4 starting buffer: cursor at the end of abc, above the shorter
line a. -/
def C4editor : Editor :=
  { baseEditor with rows := [['a', 'b', 'c'], ['a']], cur_pos := { x := 3, y := 0 } }

/-- The state the code reaches from C4editor after Down. -/
def C4after : Editor :=
  { C4editor with cur_pos := { x := 0, y := 1 } }

/-- C4 counterexample: moving Down from column 3 of abc onto the line a
of length 1 leaves the cursor at column 0, not at the target line's
length 1 that the claim demands. -/
theorem C4_down_clamp_counterexample :
    moveCursor C4editor NavigationKey.Down = some C4after ∧
    currentLine C4after = some ['a'] ∧
    C4after.cur_pos.x = 0 ∧
    C4after.cur_pos.x ≠ List.length ['a'] := by
  refine ⟨by decide, by decide, by decide, by decide⟩

/-- C4 amended: Up preserves the viewport-relative horizontal position
when the target line is at least that long and otherwise clamps it to
exactly the target line's length; Down, started above the last buffer
line, preserves it when the target line is at least that long and
otherwise clamps it to the target line's length minus one (saturating).
The comparison is against cur_pos.x alone, ignoring col_offset. -/
theorem C4_vertical_motion_clamp (e e' : Editor) (l : Row) :
    (moveCursor e NavigationKey.Up = some e' → currentLine e' = some l →
      e'.cur_pos.x = min e.cur_pos.x l.length) ∧
    (e.rows ≠ [] → e.row_offset + e.cur_pos.y + 1 ≠ e.rows.length →
      moveCursor e NavigationKey.Down = some e' → currentLine e' = some l →
      e'.cur_pos.x = if l.length < e.cur_pos.x then l.length - 1 else e.cur_pos.x) := by
  constructor
  · intro h hl
    obtain rfl : moveUp e = e' := Option.some.inj h
    unfold moveUp at hl ⊢
    rw [clampX_currentLine] at hl
    rw [clampX_x _ _ hl, moveUpShift_x]
  · intro hne hlast h hl
    have hz : ¬ e.rows.length = 0 := fun hh => hne (List.length_eq_zero.mp hh)
    have hcond : e.row_offset + e.cur_pos.y ≠ e.rows.length - 1 := by omega
    have hd : moveDown e = some (clampXSub (moveDownShift e)) := by
      simp only [moveDown, if_neg hz, if_pos hcond]
    rw [show moveCursor e NavigationKey.Down = moveDown e from rfl, hd] at h
    obtain rfl : clampXSub (moveDownShift e) = e' := Option.some.inj h
    rw [clampXSub_currentLine] at hl
    rw [clampXSub_x _ _ hl, moveDownShift_x]

/-- An editor one row below a two-character line, cursor far right. -/
def C4up : Editor :=
  { baseEditor with rows := [['a', 'b']], cur_pos := { x := 5, y := 1 } }

/-- The state the code reaches from C4up after Up. -/
def C4upAfter : Editor :=
  { C4up with cur_pos := { x := 2, y := 0 } }

theorem C4_vertical_motion_clamp_witness :
    C4upAfter.cur_pos.x = min C4up.cur_pos.x (List.length ['a', 'b']) ∧
    C4after.cur_pos.x =
      if List.length ['a'] < C4editor.cur_pos.x then List.length ['a'] - 1
      else C4editor.cur_pos.x :=
  ⟨(C4_vertical_motion_clamp C4up C4upAfter ['a', 'b']).1 (by decide) (by decide),
   (C4_vertical_motion_clamp C4editor C4after ['a']).2 (by decide) (by decide)
     (by decide) (by decide)⟩

/-- C5: the escape sequence consisting of the bracket byte 91 followed by
byte 90 (the letter Z) is not in the navigation table, so decoding fails
with the InvalidData error; and whenever decoding fails the main loop's
Escape arm performs no cursor motion at all, returning the editor state
unchanged and without a panic. -/
theorem C5_invalid_escape_is_noop :
    handleEscapeSeq 91 90 = Except.error () ∧
    ∀ (e : Editor) (b0 b1 : Nat),
      handleEscapeSeq b0 b1 = Except.error () → escapeStep e b0 b1 = some e := by
  refine ⟨rfl, ?_⟩
  intro e b0 b1 h
  simp [escapeStep, h]

theorem C5_invalid_escape_is_noop_witness :
    escapeStep baseEditor 91 90 = some baseEditor :=
  C5_invalid_escape_is_noop.2 baseEditor 91 90 C5_invalid_escape_is_noop.1

/-- A path present in no model file system. -/
def C6path : List Char := ['m', 'i', 's', 's', 'i', 'n', 'g']

/-- C6 counterexample: opening a path that is not a regular file does not
fail — Editor::open skips its whole body and returns Ok, leaving the
editor unchanged, rather than returning a NotFound or IoError error. -/
theorem C6_open_nonfile_counterexample :
    openResultE baseEditor [] C6path = Except.ok baseEditor ∧
    openE baseEditor [] C6path = baseEditor :=
  ⟨rfl, rfl⟩

/-- C6 amended: if the path is not a regular file, load silently returns
Ok with the editor unchanged (no error is reported); if it is, load
replaces the buffer contents with the file's lines, records the path for
later save, and keeps the opened file as the backing file. -/
theorem C6_open_behaviour (e : Editor) (fs : FS) (p : List Char) :
    (lookupFS fs p = none → openResultE e fs p = Except.ok e) ∧
    (∀ content, lookupFS fs p = some content →
      openResultE e fs p =
        Except.ok { e with file := some content, path := some p,
                           rows := rustLines content }) := by
  constructor
  · intro h
    simp [openResultE, openE, h]
  · intro content h
    simp [openResultE, openE, h]

/-- A one-file model file system for the C6 witness. -/
def C6fs : FS := [(['a'], ['h', 'i'])]

theorem C6_open_behaviour_witness :
    openResultE baseEditor [] ['q'] = Except.ok baseEditor ∧
    openResultE baseEditor C6fs ['a'] =
      Except.ok { baseEditor with file := some ['h', 'i'], path := some ['a'],
                                  rows := rustLines ['h', 'i'] } :=
  ⟨(C6_open_behaviour baseEditor [] ['q']).1 rfl,
   (C6_open_behaviour baseEditor C6fs ['a']).2 ['h', 'i'] rfl⟩

/-- C7: whenever the absolute cursor row equals the line count,
insert_char appends a new line holding only the inserted character and
sets the dirty flag; in particular on an empty buffer with the cursor at
the origin and a positive usable width, inserting x yields the single
row x with the cursor at column 1 of row 0. -/
theorem C7_insert_at_line_count :
    (∀ (e : Editor) (c : Char), e.cur_pos.y + e.row_offset = e.rows.length →
      ∃ e', insertChar e c = some e' ∧ e'.rows = e.rows ++ [[c]] ∧
        e'.dirty_flag = true) ∧
    (∀ tr tc : Nat, 0 < tc →
      ∃ e', insertChar (eEmpty tr tc) 'x' = some e' ∧ e'.rows = [['x']] ∧
        e'.cur_pos.x = 1 ∧ e'.cur_pos.y = 0) := by
  constructor
  · intro e c hy
    refine ⟨moveRight { e with dirty_flag := true, rows := e.rows ++ [[c]] },
            ?_, (moveRight_frame _).1, (moveRight_frame _).2⟩
    have hE : insertCharEdited { e with dirty_flag := true } c =
        some { e with dirty_flag := true, rows := e.rows ++ [[c]] } := by
      simp only [insertCharEdited]
      rw [if_pos hy]
    simp only [insertChar, hE, moveCursor]
  · intro tr tc htc
    have htc' : ¬ ((0 : Nat) = tc) := by omega
    have hE : insertCharEdited { eEmpty tr tc with dirty_flag := true } 'x' =
        some { eEmpty tr tc with dirty_flag := true, rows := [['x']] } := rfl
    have hc : currentLine { eEmpty tr tc with dirty_flag := true, rows := [['x']] } =
        some ['x'] := rfl
    have hR : moveRight { eEmpty tr tc with dirty_flag := true, rows := [['x']] } =
        { eEmpty tr tc with
          dirty_flag := true
          rows := [['x']]
          cur_pos := { x := 1, y := 0 } } := by
      simp only [moveRight, hc]
      rw [if_neg (by simp [eEmpty, baseEditor]),
          if_pos (show (eEmpty tr tc).cur_pos.x ≠ (eEmpty tr tc).term_cols from htc')]
      rfl
    refine ⟨{ eEmpty tr tc with
              dirty_flag := true
              rows := [['x']]
              cur_pos := { x := 1, y := 0 } }, ?_, rfl, rfl, rfl⟩
    simp only [insertChar, hE, moveCursor, hR]

theorem C7_insert_at_line_count_witness :
    (∃ e', insertChar baseEditor 'q' = some e' ∧
      e'.rows = baseEditor.rows ++ [['q']] ∧ e'.dirty_flag = true) ∧
    (∃ e', insertChar (eEmpty 10 10) 'x' = some e' ∧ e'.rows = [['x']] ∧
      e'.cur_pos.x = 1 ∧ e'.cur_pos.y = 0) :=
  ⟨C7_insert_at_line_count.1 baseEditor 'q' rfl,
   C7_insert_at_line_count.2 10 10 (by decide)⟩

theorem ctrl_key_q : ctrl_key 'q' = 17 := rfl

theorem ctrl_key_x : ctrl_key 'x' = 24 := rfl

theorem ctrl_key_s : ctrl_key 's' = 19 := rfl

/-- C8: byte 27 decodes to Escape — the c = 27 test in the Delete arm is
shadowed by the earlier Escape arm and is unreachable — so the Delete
action is produced by exactly one byte, 127. -/
theorem C8_escape_shadows_delete :
    byteAction 27 = Action.Escape ∧
    ∀ c : Nat, byteAction c = Action.Delete ↔ c = 127 := by
  refine ⟨by decide, ?_⟩
  intro c
  rw [byteAction, ctrl_key_q, ctrl_key_x, ctrl_key_s]
  split_ifs with h1 h2 h3 h4 h5 h6 <;> simp_all

theorem C8_escape_shadows_delete_witness :
    byteAction 127 = Action.Delete ∧ byteAction 27 = Action.Escape :=
  ⟨(C8_escape_shadows_delete.2 127).mpr rfl, C8_escape_shadows_delete.1⟩

/-- C9: Home never fails on any editor state; it zeroes cur_pos.x and
col_offset and leaves the buffer rows, row_offset, cur_pos.y and the
dirty flag untouched. -/
theorem C9_home_frame (e : Editor) :
    ∃ e', moveCursor e NavigationKey.Home = some e' ∧
      e'.cur_pos.x = 0 ∧ e'.col_offset = 0 ∧
      e'.rows = e.rows ∧ e'.row_offset = e.row_offset ∧
      e'.cur_pos.y = e.cur_pos.y ∧ e'.dirty_flag = e.dirty_flag :=
  ⟨moveHome e, rfl, rfl, rfl, rfl, rfl, rfl, rfl⟩

theorem removeCharEdited_dirty (z e1 : Editor)
    (h : removeCharEdited z = some e1) : e1.dirty_flag = z.dirty_flag := by
  simp only [removeCharEdited] at h
  repeat' split at h
  all_goals try exact Option.noConfusion h
  all_goals obtain rfl := Option.some.inj h
  all_goals rfl

/-- C10: remove_char sets the dirty flag before looking at the buffer,
so every non-panicking call leaves it true; in particular at absolute
column 0 with the cursor row past the last line it succeeds, changes no
row, and still marks the buffer dirty. -/
theorem C10_remove_char_dirty (e : Editor) :
    (∀ e', removeChar e = some e' → e'.dirty_flag = true) ∧
    (e.cur_pos.x = 0 → e.col_offset = 0 →
      e.rows.length ≤ e.cur_pos.y + e.row_offset →
      ∃ e', removeChar e = some e' ∧ e'.rows = e.rows ∧
        e'.dirty_flag = true) := by
  constructor
  · intro e' h
    simp only [removeChar] at h
    cases hE : removeCharEdited { e with dirty_flag := true } with
    | none =>
      rw [hE] at h
      exact Option.noConfusion (show (none : Option Editor) = some e' from h)
    | some e1 =>
      rw [hE] at h
      have h2 : some (moveLeft e1) = some e' := h
      obtain rfl := Option.some.inj h2
      exact (moveLeft_frame e1).2.trans (removeCharEdited_dirty _ _ hE)
  · intro hx hc hy
    have he : currentLine { e with dirty_flag := true } = none := by
      simp only [currentLine]
      exact List.get?_eq_none.mpr (by omega)
    have hE : removeCharEdited { e with dirty_flag := true } =
        some { e with dirty_flag := true } := by
      simp only [removeCharEdited]
      rw [if_pos (show e.cur_pos.x + e.col_offset = 0 by omega), he]
    refine ⟨moveLeft { e with dirty_flag := true }, ?_,
            (moveLeft_frame _).1, (moveLeft_frame _).2⟩
    simp only [removeChar, hE, moveCursor]

theorem C10_remove_char_dirty_witness :
    (moveLeft { baseEditor with dirty_flag := true }).dirty_flag = true ∧
    (∃ e', removeChar baseEditor = some e' ∧ e'.rows = baseEditor.rows ∧
      e'.dirty_flag = true) :=
  ⟨(C10_remove_char_dirty baseEditor).1
      (moveLeft { baseEditor with dirty_flag := true }) (by decide),
   (C10_remove_char_dirty baseEditor).2 rfl rfl (by decide)⟩

end Rilo
